import Mathlib

/-!
Verification of the `ge3t_shim_tool` command-channel client (`src/exsi_client.py`)
and the all-slice sweep of the scan orchestrator (`src/ExsiGui.py`), as a shallow
embedding in Lean.

Strings are modelled as `List Char` (the client exchanges ASCII protocol text);
Python string operations (`in`, `find`, slicing, `split`, `startswith`, the one
regex used by `send`) are given faithful executable models below.  Mutable
object state (`self.…`) becomes explicit state records; the two worker threads
(receive loop and command processor) become a labelled step relation.
-/

namespace Exsi

/-- Python `needle in hay` (substring containment), on character lists. -/
def pyIn (needle : List Char) : List Char → Bool
  | [] => needle.isPrefixOf []
  | hay@(_ :: t) => needle.isPrefixOf hay || pyIn needle t

/-- Python `hay.find(needle)`: index of the first occurrence, `-1` if absent. -/
def pyFind (needle : List Char) : List Char → Int
  | [] => if needle.isPrefixOf ([] : List Char) then 0 else -1
  | hay@(_ :: t) =>
    if needle.isPrefixOf hay then 0
    else if pyFind needle t < 0 then -1 else pyFind needle t + 1

/-- Adjust one Python slice index: negative indices count from the end, and the
result is clamped into `[0, len]`. -/
def pyAdjIndex (len : Nat) (i : Int) : Nat :=
  let j := if i < 0 then i + len else i
  if j < 0 then 0 else min j.toNat len

/-- Python `s[start:stop]` (step 1) slice semantics. -/
def pySlice (s : List Char) (start stop : Int) : List Char :=
  (s.take (pyAdjIndex s.length stop)).drop (pyAdjIndex s.length start)

/-- Python `s.split(sep)` for a one-character separator `sep`; always returns at
least one piece (`"".split(",") == [""]`). -/
def pySplit (sep : Char) : List Char → List (List Char)
  | [] => [[]]
  | c :: cs =>
    let r := pySplit sep cs
    if c = sep then [] :: r
    else
      match r with
      | [] => [[c]]
      | p :: ps => (c :: p) :: ps

/-- The literal searched for by `re.search("SelectTask taskkey=(?!\d+)", cmd)`
in `exsi.send` (exsi_client.py line 40). -/
def selectTaskPat : List Char := "SelectTask taskkey=".data

/-- The negative lookahead `(?!\d+)`: succeeds iff the next character is absent
or not a digit (the commands in this protocol are ASCII, so `\d` is `[0-9]`). -/
def notDigitNext : List Char → Bool
  | [] => true
  | c :: _ => !c.isDigit

/-- Model of `re.search("SelectTask taskkey=(?!\d+)", cmd) is not None`: some
occurrence of the literal is not followed by a digit. -/
def keylessSelect : List Char → Bool
  | [] => false
  | cmd@(_ :: t) =>
    (selectTaskPat.isPrefixOf cmd && notDigitNext (cmd.drop selectTaskPat.length))
      || keylessSelect t

/-- State of one `exsi` channel object (exsi_client.py lines 12-31).
`recvLoopAlive` models whether the receive loop's `while` body is still being
executed (it becomes false at the `break` on line 90); `recvJoined`/`procJoined`
record that `stop` has joined the corresponding worker thread.  The command
queue holds `Option` payloads because `stop` enqueues a `None` sentinel. -/
structure ChannelState where
  running : Bool
  socketOpen : Bool
  recvLoopAlive : Bool
  counter : Nat
  lastCommand : List Char
  readyEvent : Bool
  commandQueue : List (Option (List Char))
  taskQueue : List (List Char)
  recvJoined : Bool
  procJoined : Bool
deriving DecidableEq

/-- The classifier `exsi.is_ready` (exsi_client.py lines 92-131): from the last
sent command and an inbound message it returns `(success, ready)`, and - in the
`LoadProtocol` branch - pushes the parsed task keys onto the task queue, which
is threaded through explicitly here.

The branch for `Prescan` is modelled from the spec: source line 119 is garbled
(`ww    ready = "Prescan" in msg`, a Python syntax error); following the spec's
design note ("ready when the response contains a prescan-completion marker")
and the surviving tokens of the line, it is taken to be `"Prescan" in msg`. -/
def is_ready (lastCommand msg : List Char) (taskQueue : List (List Char)) :
    (Bool × Bool) × List (List Char) :=
  if pyIn "fail".data msg then
    ((false, true), taskQueue)
  else if "Scan".data.isPrefixOf lastCommand then
    ((true, pyIn "acquisition=complete".data msg), taskQueue)
  else if "ActivateTask".data.isPrefixOf lastCommand then
    ((true, pyIn "ActivateTask=".data msg), taskQueue)
  else if "SelectTask".data.isPrefixOf lastCommand then
    ((true, pyIn "SelectTask=".data msg), taskQueue)
  else if "PatientTable".data.isPrefixOf lastCommand then
    ((true, pyIn "PatientTable=".data msg), taskQueue)
  else if "LoadProtocol".data.isPrefixOf lastCommand then
    ((true, pyIn "LoadProtocol=".data msg),
      taskQueue ++ pySplit ',' (pySlice msg (pyFind "taskKeys=".data msg + 9) (-2)))
  else if "SetCVs".data.isPrefixOf lastCommand then
    ((true, pyIn "SetCVs".data msg), taskQueue)
  else if "Prescan".data.isPrefixOf lastCommand then
    ((true, pyIn "Prescan".data msg), taskQueue)
  else if "SetGrxSlices".data.isPrefixOf lastCommand then
    ((true, true), taskQueue)
  else if "SetGrxsomething....".data.isPrefixOf lastCommand then
    ((true, true), taskQueue)
  else if "Help".data.isPrefixOf lastCommand then
    ((true, pyIn "Help".data msg), taskQueue)
  else
    ((true, pyIn "NotifyEvent".data msg), taskQueue)

/-- The body of `exsi.receive_loop` for one non-empty decoded message
(exsi_client.py lines 71-83): classify, on failure clear the command queue
(`clear_command_queue`, lines 133-141, drains it completely), on ready set the
readiness event. -/
def processMsg (st : ChannelState) (msg : List Char) : ChannelState :=
  match is_ready st.lastCommand msg st.taskQueue with
  | ((success, ready), tq) =>
    let st1 := { st with taskQueue := tq }
    let st2 := if success then st1 else { st1 with commandQueue := [] }
    if ready then { st2 with readyEvent := true } else st2

/-- One observable input to the receive loop: a decoded message, a harmless
socket timeout, or any other I/O exception. -/
inductive RecvEvent
  | message (msg : List Char)
  | sockTimeout
  | ioError (desc : List Char)

/-- One iteration of `exsi.receive_loop` (exsi_client.py lines 67-90): nothing
happens unless the loop is still running; a socket timeout is a retry; any
other exception is logged and breaks the loop (leaving `running` untouched). -/
def receiveStep (st : ChannelState) (ev : RecvEvent) : ChannelState :=
  if st.running && st.recvLoopAlive then
    match ev with
    | .message msg => if msg.isEmpty then st else processMsg st msg
    | .sockTimeout => st
    | .ioError _ => { st with recvLoopAlive := false }
  else st

/-- Result of `exsi.send` with `immediate=False`: either the updated state, or
the call blocks forever (`task_queue.get()` on an empty queue, with Python's
default `block=True, timeout=None`, never returns). -/
inductive SendOutcome
  | ok (st : ChannelState)
  | blocked
deriving DecidableEq

/-- `exsi.send(cmd)` with `immediate=False` (exsi_client.py lines 33-47): a
keyless `SelectTask taskkey=` command first pops the oldest task key and
appends it to the command text; everything is then enqueued on the command
queue.  (`immediate=True` bypasses the queue and calls `_send_command`.) -/
def send (st : ChannelState) (cmd : List Char) : SendOutcome :=
  if keylessSelect cmd then
    match st.taskQueue with
    | [] => .blocked
    | k :: rest =>
      .ok { st with taskQueue := rest,
                    commandQueue := st.commandQueue ++ [some (cmd ++ k)] }
  else
    .ok { st with commandQueue := st.commandQueue ++ [some cmd] }

/-- Repeated calls to `exsi.send` (non-immediate), stopping at the first call
that blocks. -/
def sendAll (st : ChannelState) : List (List Char) → SendOutcome
  | [] => .ok st
  | c :: cs =>
    match send st c with
    | .ok st' => sendAll st' cs
    | .blocked => .blocked

/-- A freshly connected channel (counter 0, everything empty, both workers
running; cf. `exsi.__init__`, exsi_client.py lines 12-31). -/
def st0 : ChannelState := ⟨true, true, true, 0, [], false, [], [], false, false⟩

/-- Big-endian bytes of `struct.pack('!H', n)` (valid for `n < 2^16`). -/
def pack16 (n : Nat) : List Nat := [n / 256 % 256, n % 256]

/-- Big-endian bytes of `struct.pack('!I', n)` (valid for `n < 2^32`). -/
def pack32 (n : Nat) : List Nat :=
  [n / 16777216 % 256, n / 65536 % 256, n / 256 % 256, n % 256]

/-- Big-endian decoding of a byte list (inverse of `pack32` on 4 bytes). -/
def unpack32 (bs : List Nat) : Nat := bs.foldl (fun a b => a * 256 + b) 0

/-- UTF-8 encoding of one character (`str.encode('utf-8')`, per code point). -/
def utf8Bytes (c : Char) : List Nat :=
  let n := c.toNat
  if n < 128 then [n]
  else if n < 2048 then [192 + n / 64, 128 + n % 64]
  else if n < 65536 then [224 + n / 4096, 128 + n / 64 % 64, 128 + n % 64]
  else [240 + n / 262144, 128 + n / 4096 % 64, 128 + n / 64 % 64, 128 + n % 64]

/-- UTF-8 encoding of a text. -/
def utf8Encode (s : List Char) : List Nat := (s.map utf8Bytes).flatten

/-- Python `str(n)` for a natural number. -/
def pyStr (n : Nat) : List Char := (Nat.repr n).data

/-- `exsi._send_command(cmd)` (exsi_client.py lines 49-59): clear the readiness
event, record the command, build the tagged payload
`b'>heartvista:1:' + str(counter) + b'>' + cmd`, bump the counter, and write
the frame: two 16-bit big-endian fields (16 and 1000), the 32-bit big-endian
payload byte length, two more 32-bit fields (0 and 100), then the payload.
Returns the updated state and the bytes written to the socket. -/
def send_command (st : ChannelState) (cmd : List Char) : ChannelState × List Nat :=
  let tcmd := ">heartvista:1:".data ++ pyStr st.counter ++ ">".data ++ cmd
  ({ st with readyEvent := false, lastCommand := cmd, counter := st.counter + 1 },
    pack16 16 ++ (pack16 1000 ++ (pack32 (utf8Encode tcmd).length
      ++ (pack32 0 ++ (pack32 100 ++ utf8Encode tcmd)))))

/-- The three threads that touch an `exsi` object: the caller (GUI/main), the
receive-loop worker, and the command-processor worker. -/
inductive ThreadId
  | mainThread
  | receiverThread
  | processorThread
deriving DecidableEq

/-- The exceptions relevant to `wait_for_ready`/`stop`: the `TimeoutError` of
line 169, and CPython's `RuntimeError("cannot join current thread")`, raised by
`threading.Thread.join` when a thread attempts to join itself. -/
inductive PyExc
  | timeoutError
  | runtimeErrorJoinCurrentThread
deriving DecidableEq

/-- `exsi.stop` (exsi_client.py lines 172-178), executed on thread `caller`:
clear `running`, enqueue the `None` sentinel, join the receiving thread, join
the command-processor thread, close the socket.  A `join` of the calling
thread itself raises `RuntimeError` (CPython `threading.Thread.join`), which
aborts the remaining statements. -/
def stop (caller : ThreadId) (st : ChannelState) : ChannelState × Option PyExc :=
  let st1 := { st with running := false, commandQueue := st.commandQueue ++ [none] }
  if caller = ThreadId.receiverThread then
    (st1, some PyExc.runtimeErrorJoinCurrentThread)
  else
    let st2 := { st1 with recvJoined := true }
    if caller = ThreadId.processorThread then
      (st2, some PyExc.runtimeErrorJoinCurrentThread)
    else
      let st3 := { st2 with procJoined := true }
      ({ st3 with socketOpen := false }, none)

/-- `exsi.wait_for_ready` (exsi_client.py lines 165-170), executed on thread
`caller`; `eventSet` says whether `ready_event.wait(timeout)` observed the
event within the bound.  On timeout the code calls `stop()` and then raises
`TimeoutError` - unless `stop()` itself raises first. -/
def wait_for_ready (caller : ThreadId) (st : ChannelState) (eventSet : Bool) :
    ChannelState × Option PyExc :=
  if eventSet then ({ st with readyEvent := false }, none)
  else
    match stop caller st with
    | (st', some e) => (st', some e)
    | (st', none) => (st', some PyExc.timeoutError)

/-!
## Dispatcher / receive-loop interleaving

`process_commands` (exsi_client.py lines 148-163) is a single worker per
channel: pop the queue head, `_send_command` it (which clears the readiness
event, line 50), then block in `wait_for_ready` until the receive loop sets
the event (line 83), clear the event (line 170) and loop.  The observable
actions of the channel are modelled as a labelled transition system; an event
is enabled only when the code could actually perform it.
-/

/-- Scheduler-visible actions of one channel. -/
inductive ChanEvent
  /-- `send` enqueues a command on the command queue (lines 44 and 47). -/
  | enqueue (cmd : List Char)
  /-- The worker pops the queue head and `_send_command`s it (lines 153-154);
  only possible when the worker is not blocked inside `wait_for_ready`. -/
  | dispatch
  /-- The receive loop classifies a message as ready and sets the event
  (line 83). -/
  | readySet
  /-- `wait_for_ready` observes the event, clears it and returns (166, 170). -/
  | complete
  /-- `clear_command_queue` drains all pending commands on a failure (line 81). -/
  | flush
deriving DecidableEq

/-- Dispatcher-relevant state: pending queue, commands already written to the
socket in order, whether the worker sits between `_send_command` and the
return of `wait_for_ready`, and the readiness event. -/
structure DispatchState where
  queue : List (List Char)
  sent : List (List Char)
  waiting : Bool
  eventSet : Bool
deriving DecidableEq

/-- One step of the channel; `none` when the event is not enabled in `st`. -/
def chanStep (st : DispatchState) : ChanEvent → Option DispatchState
  | .enqueue c => some { st with queue := st.queue ++ [c] }
  | .dispatch =>
    if st.waiting then none
    else
      match st.queue with
      | [] => none
      | c :: rest =>
        some { queue := rest, sent := st.sent ++ [c], waiting := true, eventSet := false }
  | .readySet => some { st with eventSet := true }
  | .complete =>
    if st.waiting && st.eventSet then
      some { st with waiting := false, eventSet := false }
    else none
  | .flush => some { st with queue := [] }

/-- Run a sequence of channel events. -/
def chanRun (st : DispatchState) : List ChanEvent → Option DispatchState
  | [] => some st
  | e :: es =>
    match chanStep st e with
    | none => none
    | some st' => chanRun st' es

/-- The channel state right after `__init__`: empty queue, nothing sent, the
worker idle, the event cleared. -/
def initChan : DispatchState := ⟨[], [], false, false⟩

/-- The commands enqueued along a trace, in order. -/
def enqueuedOf (evs : List ChanEvent) : List (List Char) :=
  evs.filterMap fun e =>
    match e with
    | .enqueue c => some c
    | _ => none

/-- Number of `dispatch` events in a trace. -/
def countDispatch : List ChanEvent → Nat
  | [] => 0
  | .dispatch :: es => countDispatch es + 1
  | _ :: es => countDispatch es

/-- Number of `complete` events in a trace. -/
def countComplete : List ChanEvent → Nat
  | [] => 0
  | .complete :: es => countComplete es + 1
  | _ :: es => countComplete es

/-- Number of `readySet` events in a trace. -/
def countReady : List ChanEvent → Nat
  | [] => 0
  | .readySet :: es => countReady es + 1
  | _ :: es => countReady es

/-- A sample channel trace: two commands enqueued, each dispatched only after
the previous one's readiness resolved. -/
def sampleTrace : List ChanEvent :=
  [.enqueue "PatientTable home".data, .enqueue "Help".data,
   .dispatch, .readySet, .complete, .dispatch, .readySet, .complete]

/-- The state `sampleTrace` ends in. -/
def sampleEnd : DispatchState :=
  ⟨[], ["PatientTable home".data, "Help".data], false, false⟩

end Exsi

namespace ExsiGui

/-- Index of the first slice with a solved current vector: the `startindex`
loop of `ExsiGui.doAllShimmedScans` (ExsiGui.py lines 1347-1351). -/
def firstSome {α : Type} : List (Option α) → Option Nat
  | [] => none
  | x :: t => if x.isSome then some 0 else (firstSome t).map (· + 1)

/-- Python `range(start, start+num)` as a list, where `num` may be negative
(empty range). -/
def pyRangeList (start : Nat) (num : Int) : List Nat :=
  (List.range num.toNat).map (start + ·)

/-- The slice indices visited by the all-slice sweep, as computed by
`ExsiGui.doAllShimmedScans` (ExsiGui.py lines 1342-1365): `startindex` is the
first index whose `currents` entry is not `None`, then incremented by one;
`numindexes` is the number of non-`None` entries minus two; the sweep
(`waitdoAllShimmedScans`, lines 1297-1338, and `queueAll`, lines 1362-1364)
then runs over `range(startindex, startindex + numindexes)`, performing one
basis-pair queueing and one 2-scan verification (`countScansCompleted(2)`,
line 1326) per visited index.  When every entry is `None` the code raises
(`None + 1`), modelled as `none`. -/
def doAllShimmedScansPlan {α : Type} (currents : List (Option α)) : Option (List Nat) :=
  match firstSome currents with
  | none => none
  | some s => some (pyRangeList (s + 1) ((currents.countP (·.isSome) : Int) - 2))

/-- The slices the spec says the sweep visits: every slice with a solved
current vector, excluding the first and the last such slice.  (Stated from the
spec's words, for comparison with `doAllShimmedScansPlan`.) -/
def someIndices {α : Type} : List (Option α) → List Nat
  | [] => []
  | x :: t =>
    let r := (someIndices t).map (· + 1)
    if x.isSome then 0 :: r else r

/-- Spec-side visited set: solved slice indices minus the first and the last. -/
def solvedIndicesMinusEnds {α : Type} (currents : List (Option α)) : List Nat :=
  ((someIndices currents).drop 1).dropLast

end ExsiGui

namespace Exsi

/-- C2: a failure marker anywhere in the message makes the classifier report
success=false and ready=true for every last-command category; the receive loop
then drains the command queue to length 0, leaves the readiness event set (so
the dispatcher's in-flight wait is unblocked), and the task queue untouched. -/
theorem failure_marker_flushes_queue_and_unblocks (st : ChannelState) (msg : List Char)
    (hfail : pyIn "fail".data msg = true) :
    is_ready st.lastCommand msg st.taskQueue = ((false, true), st.taskQueue) ∧
    (processMsg st msg).commandQueue = [] ∧
    (processMsg st msg).readyEvent = true ∧
    (processMsg st msg).taskQueue = st.taskQueue := by
  have h1 : is_ready st.lastCommand msg st.taskQueue = ((false, true), st.taskQueue) := by
    simp [is_ready, hfail]
  refine ⟨h1, ?_, ?_, ?_⟩ <;> simp [processMsg, h1]

/-- Witness for C2 at a concrete channel state and message. -/
theorem failure_marker_flushes_queue_and_unblocks_witness :
    pyIn "fail".data "Scan fail=permission".data = true ∧
    (processMsg ⟨true, true, true, 3, "Scan".data, false,
        [some "PatientTable home".data, some "Help".data], [], false, false⟩
      "Scan fail=permission".data).commandQueue = [] ∧
    (processMsg ⟨true, true, true, 3, "Scan".data, false,
        [some "PatientTable home".data, some "Help".data], [], false, false⟩
      "Scan fail=permission".data).readyEvent = true := by
  have h := failure_marker_flushes_queue_and_unblocks
    ⟨true, true, true, 3, "Scan".data, false,
      [some "PatientTable home".data, some "Help".data], [], false, false⟩
    "Scan fail=permission".data (by decide)
  exact ⟨by decide, h.2.1, h.2.2.1⟩

/-- C3: what the code actually does when the 60-second readiness bound
expires.  `wait_for_ready` runs on the command-processor thread (its only call
site is line 155, inside `process_commands`), so `stop()`'s
`command_processor_thread.join()` is a join of the current thread: CPython
raises `RuntimeError("cannot join current thread")`.  Hence on the timeout
path the running flag is cleared and the receiving thread is joined, but the
processor thread is never joined, the socket is never closed, and the error
that surfaces is that RuntimeError - the `TimeoutError` of line 169 is
unreachable there.  (Called from any other thread, e.g. the main thread, the
code would behave as the spec says: both joins succeed, the socket is closed
and `TimeoutError` is raised.) -/
theorem timeout_stop_self_join (st : ChannelState) :
    (wait_for_ready ThreadId.processorThread st false).2
      = some PyExc.runtimeErrorJoinCurrentThread ∧
    (wait_for_ready ThreadId.processorThread st false).1.running = false ∧
    (wait_for_ready ThreadId.processorThread st false).1.recvJoined = true ∧
    (wait_for_ready ThreadId.processorThread st false).1.procJoined = st.procJoined ∧
    (wait_for_ready ThreadId.processorThread st false).1.socketOpen = st.socketOpen ∧
    (wait_for_ready ThreadId.mainThread st false).2 = some PyExc.timeoutError ∧
    (wait_for_ready ThreadId.mainThread st false).1.socketOpen = false ∧
    (wait_for_ready ThreadId.mainThread st false).1.recvJoined = true ∧
    (wait_for_ready ThreadId.mainThread st false).1.procJoined = true :=
  ⟨rfl, rfl, rfl, rfl, rfl, rfl, rfl, rfl, rfl⟩

/-- C5: what the code actually does on a keyless `SelectTask taskkey=` with an
empty task queue: `task_queue.get()` (blocking, no timeout) never returns, so
`send` hangs instead of failing loudly. -/
theorem keyless_select_empty_queue_blocks :
    keylessSelect "SelectTask taskkey=".data = true ∧
    send st0 "SelectTask taskkey=".data = SendOutcome.blocked := by
  constructor
  · decide
  · rfl

/-- C6: what the code actually does after the receive loop dies from a
non-timeout I/O exception: the loop breaks but `running` stays true, and a
subsequent `send` succeeds silently, enqueuing the command with no error
(`send` never checks whether the receive loop is alive). -/
theorem send_after_connection_error_enqueues_silently :
    (receiveStep st0 (RecvEvent.ioError "Connection reset by peer".data)).running = true ∧
    (receiveStep st0 (RecvEvent.ioError "Connection reset by peer".data)).recvLoopAlive = false ∧
    send (receiveStep st0 (RecvEvent.ioError "Connection reset by peer".data)) "Scan".data
      = SendOutcome.ok ⟨true, true, false, 0, [], false, [some "Scan".data], [], false, false⟩ := by
  refine ⟨rfl, rfl, ?_⟩
  decide

/-- Python `split` never returns an empty list of pieces. -/
theorem pySplit_length_pos (sep : Char) (s : List Char) : 1 ≤ (pySplit sep s).length := by
  induction s with
  | nil => simp [pySplit]
  | cons c cs ih =>
    simp only [pySplit]
    split
    · simp
    · cases h : pySplit sep cs with
      | nil => simp
      | cons p ps => simp

/-- C7: totality of the classifier's branch chain - a last command matched by
none of the specific keyword rules, in a message without the failure marker,
falls through to the default generic-notification rule, with success true and
the task queue untouched (the classifier itself is a total function; no input
raises).  The `Prescan` branch is spec-modelled, see `is_ready`. -/
theorem classifier_default_rule (lastCmd msg : List Char) (tq : List (List Char))
    (hnf : pyIn "fail".data msg = false)
    (h1 : "Scan".data.isPrefixOf lastCmd = false)
    (h2 : "ActivateTask".data.isPrefixOf lastCmd = false)
    (h3 : "SelectTask".data.isPrefixOf lastCmd = false)
    (h4 : "PatientTable".data.isPrefixOf lastCmd = false)
    (h5 : "LoadProtocol".data.isPrefixOf lastCmd = false)
    (h6 : "SetCVs".data.isPrefixOf lastCmd = false)
    (h7 : "Prescan".data.isPrefixOf lastCmd = false)
    (h8 : "SetGrxSlices".data.isPrefixOf lastCmd = false)
    (h9 : "SetGrxsomething....".data.isPrefixOf lastCmd = false)
    (h10 : "Help".data.isPrefixOf lastCmd = false) :
    is_ready lastCmd msg tq = ((true, pyIn "NotifyEvent".data msg), tq) := by
  simp [is_ready, hnf, h1, h2, h3, h4, h5, h6, h7, h8, h9, h10]

/-- Witness for C7 at an unknown category and a generic notification. -/
theorem classifier_default_rule_witness :
    "Scan".data.isPrefixOf "TuneGradients now".data = false ∧
    is_ready "TuneGradients now".data "NotifyEvent scan=idle".data ["9".data]
      = ((true, pyIn "NotifyEvent".data "NotifyEvent scan=idle".data), ["9".data]) :=
  ⟨by decide,
    classifier_default_rule "TuneGradients now".data "NotifyEvent scan=idle".data ["9".data]
      (by decide) (by decide) (by decide) (by decide) (by decide) (by decide) (by decide)
      (by decide) (by decide) (by decide) (by decide)⟩

/-- C10: whenever the last command starts with `LoadProtocol` and the message
lacks the failure marker, the classifier takes the `LoadProtocol` branch and
appends at least one token to the task queue; when the message has no
`taskKeys=` field, `find` returns `-1`, so the pushed tokens are the message
text from character index 8 up to its last two characters, split on commas. -/
theorem load_protocol_always_pushes (r msg : List Char) (tq : List (List Char))
    (hnf : pyIn "fail".data msg = false) :
    is_ready ("LoadProtocol".data ++ r) msg tq
      = ((true, pyIn "LoadProtocol=".data msg),
          tq ++ pySplit ',' (pySlice msg (pyFind "taskKeys=".data msg + 9) (-2))) ∧
    1 ≤ (pySplit ',' (pySlice msg (pyFind "taskKeys=".data msg + 9) (-2))).length ∧
    (pyFind "taskKeys=".data msg = -1 →
      pySplit ',' (pySlice msg (pyFind "taskKeys=".data msg + 9) (-2))
        = pySplit ',' (pySlice msg 8 (-2))) := by
  have a1 : "Scan".data.isPrefixOf ("LoadProtocol".data ++ r) = false := rfl
  have a2 : "ActivateTask".data.isPrefixOf ("LoadProtocol".data ++ r) = false := rfl
  have a3 : "SelectTask".data.isPrefixOf ("LoadProtocol".data ++ r) = false := rfl
  have a4 : "PatientTable".data.isPrefixOf ("LoadProtocol".data ++ r) = false := rfl
  have a5 : "LoadProtocol".data.isPrefixOf ("LoadProtocol".data ++ r) = true := by
    induction r with
    | nil => decide
    | cons c t _ => rfl
  refine ⟨by simp [is_ready, hnf, a1, a2, a3, a4, a5], pySplit_length_pos _ _, ?_⟩
  intro hfind
  rw [hfind]
  norm_num

/-- Witness for C10: a `LoadProtocol` response with no `taskKeys=` field. -/
theorem load_protocol_always_pushes_witness :
    pyIn "fail".data "LoadProtocol=ok AB,CDxx".data = false ∧
    is_ready ("LoadProtocol".data ++ " ConformalShimCalibration3".data)
        "LoadProtocol=ok AB,CDxx".data []
      = ((true, pyIn "LoadProtocol=".data "LoadProtocol=ok AB,CDxx".data),
          [] ++ pySplit ','
            (pySlice "LoadProtocol=ok AB,CDxx".data
              (pyFind "taskKeys=".data "LoadProtocol=ok AB,CDxx".data + 9) (-2))) :=
  ⟨by decide,
    (load_protocol_always_pushes " ConformalShimCalibration3".data
      "LoadProtocol=ok AB,CDxx".data [] (by decide)).1⟩

/-- C4: task keys are consumed strictly FIFO by keyless task selections -
with tokens `[k1, k2, k3]` (plus possibly more) declared, three keyless
`SelectTask taskkey=` sends consume exactly `k1`, then `k2`, then `k3`, each
spliced onto the command text before that command is enqueued, and the command
queue receives the three spliced commands in order. -/
theorem task_keys_consumed_fifo (st : ChannelState) (k1 k2 k3 : List Char)
    (rest : List (List Char)) (c1 c2 c3 : List Char)
    (hq : st.taskQueue = [k1, k2, k3] ++ rest)
    (h1 : keylessSelect c1 = true) (h2 : keylessSelect c2 = true)
    (h3 : keylessSelect c3 = true) :
    sendAll st [c1, c2, c3]
      = SendOutcome.ok { st with
          taskQueue := rest,
          commandQueue := st.commandQueue
            ++ [some (c1 ++ k1), some (c2 ++ k2), some (c3 ++ k3)] } := by
  simp [sendAll, send, h1, h2, h3, hq]

/-- Witness for C4: tokens `7, 8, 9` and three keyless selections. -/
theorem task_keys_consumed_fifo_witness :
    keylessSelect "SelectTask taskkey=".data = true ∧
    sendAll ⟨true, true, true, 0, [], false, [], ["7".data, "8".data, "9".data], false, false⟩
        ["SelectTask taskkey=".data, "SelectTask taskkey=".data, "SelectTask taskkey=".data]
      = SendOutcome.ok
          ⟨true, true, true, 0, [], false,
            [some ("SelectTask taskkey=".data ++ "7".data),
             some ("SelectTask taskkey=".data ++ "8".data),
             some ("SelectTask taskkey=".data ++ "9".data)], [], false, false⟩ := by
  have h := task_keys_consumed_fifo
    ⟨true, true, true, 0, [], false, [], ["7".data, "8".data, "9".data], false, false⟩
    "7".data "8".data "9".data [] "SelectTask taskkey=".data "SelectTask taskkey=".data
    "SelectTask taskkey=".data rfl (by decide) (by decide) (by decide)
  exact ⟨by decide, h⟩

/-- Decomposing a frame `a ++ b ++ c ++ d ++ e ++ p` whose header fields have
lengths 2, 2, 4, 4, 4 by byte offsets. -/
theorem frame_fields (a b c d e p : List Nat)
    (ha : a.length = 2) (hb : b.length = 2) (hc : c.length = 4)
    (hd : d.length = 4) (he : e.length = 4) :
    (a ++ (b ++ (c ++ (d ++ (e ++ p))))).take 2 = a ∧
    ((a ++ (b ++ (c ++ (d ++ (e ++ p))))).drop 2).take 2 = b ∧
    ((a ++ (b ++ (c ++ (d ++ (e ++ p))))).drop 4).take 4 = c ∧
    ((a ++ (b ++ (c ++ (d ++ (e ++ p))))).drop 8).take 4 = d ∧
    ((a ++ (b ++ (c ++ (d ++ (e ++ p))))).drop 12).take 4 = e ∧
    (a ++ (b ++ (c ++ (d ++ (e ++ p))))).drop 16 = p := by
  have d2 : (a ++ (b ++ (c ++ (d ++ (e ++ p))))).drop 2 = b ++ (c ++ (d ++ (e ++ p))) := by
    rw [← ha, List.drop_left]
  have d4 : (a ++ (b ++ (c ++ (d ++ (e ++ p))))).drop 4 = c ++ (d ++ (e ++ p)) := by
    rw [show a ++ (b ++ (c ++ (d ++ (e ++ p)))) = (a ++ b) ++ (c ++ (d ++ (e ++ p))) by
      simp [List.append_assoc]]
    rw [show (4 : Nat) = (a ++ b).length by simp [ha, hb], List.drop_left]
  have d8 : (a ++ (b ++ (c ++ (d ++ (e ++ p))))).drop 8 = d ++ (e ++ p) := by
    rw [show a ++ (b ++ (c ++ (d ++ (e ++ p)))) = ((a ++ b) ++ c) ++ (d ++ (e ++ p)) by
      simp [List.append_assoc]]
    rw [show (8 : Nat) = ((a ++ b) ++ c).length by simp [ha, hb, hc], List.drop_left]
  have d12 : (a ++ (b ++ (c ++ (d ++ (e ++ p))))).drop 12 = e ++ p := by
    rw [show a ++ (b ++ (c ++ (d ++ (e ++ p)))) = (((a ++ b) ++ c) ++ d) ++ (e ++ p) by
      simp [List.append_assoc]]
    rw [show (12 : Nat) = (((a ++ b) ++ c) ++ d).length by simp [ha, hb, hc, hd],
      List.drop_left]
  have d16 : (a ++ (b ++ (c ++ (d ++ (e ++ p))))).drop 16 = p := by
    rw [show a ++ (b ++ (c ++ (d ++ (e ++ p)))) = ((((a ++ b) ++ c) ++ d) ++ e) ++ p by
      simp [List.append_assoc]]
    rw [show (16 : Nat) = ((((a ++ b) ++ c) ++ d) ++ e).length by
      simp [ha, hb, hc, hd, he], List.drop_left]
  refine ⟨?_, ?_, ?_, ?_, ?_, d16⟩
  · rw [← ha, List.take_left]
  · rw [d2, ← hb, List.take_left]
  · rw [d4, ← hc, List.take_left]
  · rw [d8, ← hd, List.take_left]
  · rw [d12, ← he, List.take_left]

/-- `unpack32` inverts `pack32` modulo `2^32`. -/
theorem unpack32_pack32 (n : Nat) : unpack32 (pack32 n) = n % 4294967296 := by
  simp only [unpack32, pack32, List.foldl]
  omega

/-- C9: every dispatched command is written as two 16-bit big-endian header
fields (16 and 1000), a 32-bit big-endian field that decodes to the byte
length of the payload that follows, two further 32-bit big-endian fields
(0 and 100), and then the payload; the payload is the UTF-8 text consisting of
the synthetic source tag, the channel's sequence counter and the command text;
and the counter strictly increases by one on every send. -/
theorem frame_layout_and_counter (st : ChannelState) (cmd : List Char) :
    ((send_command st cmd).2).take 2 = pack16 16 ∧
    (((send_command st cmd).2).drop 2).take 2 = pack16 1000 ∧
    unpack32 ((((send_command st cmd).2).drop 4).take 4)
      = (((send_command st cmd).2).drop 16).length % 4294967296 ∧
    (((send_command st cmd).2).drop 8).take 4 = pack32 0 ∧
    (((send_command st cmd).2).drop 12).take 4 = pack32 100 ∧
    ((send_command st cmd).2).drop 16
      = utf8Encode (">heartvista:1:".data ++ pyStr st.counter ++ ">".data ++ cmd) ∧
    (send_command st cmd).1.counter = st.counter + 1 ∧
    (send_command st cmd).1.lastCommand = cmd ∧
    (send_command st cmd).1.readyEvent = false := by
  have hf := frame_fields (pack16 16) (pack16 1000)
    (pack32 (utf8Encode (">heartvista:1:".data ++ pyStr st.counter ++ ">".data ++ cmd)).length)
    (pack32 0) (pack32 100)
    (utf8Encode (">heartvista:1:".data ++ pyStr st.counter ++ ">".data ++ cmd))
    rfl rfl rfl rfl rfl
  refine ⟨hf.1, hf.2.1, ?_, hf.2.2.2.1, hf.2.2.2.2.1, hf.2.2.2.2.2, rfl, rfl, rfl⟩
  have e4 : (((send_command st cmd).2).drop 4).take 4
      = pack32 (utf8Encode (">heartvista:1:".data ++ pyStr st.counter
          ++ ">".data ++ cmd)).length := hf.2.2.1
  have e16 : ((send_command st cmd).2).drop 16
      = utf8Encode (">heartvista:1:".data ++ pyStr st.counter ++ ">".data ++ cmd) :=
    hf.2.2.2.2.2
  rw [e4, e16, unpack32_pack32]

/-- A run over a concatenation splits into two runs. -/
theorem chanRun_split (p q : List ChanEvent) (st st' : DispatchState)
    (h : chanRun st (p ++ q) = some st') :
    ∃ m, chanRun st p = some m ∧ chanRun m q = some st' := by
  induction p generalizing st with
  | nil => exact ⟨st, rfl, h⟩
  | cons e es ih =>
    rw [List.cons_append] at h
    cases hs : chanStep st e with
    | none =>
      rw [chanRun, hs] at h
      cases h
    | some st1 =>
      rw [chanRun, hs] at h
      obtain ⟨m, hm, hq⟩ := ih st1 h
      refine ⟨m, ?_, hq⟩
      have hred : chanRun st (e :: es) = chanRun st1 es := by rw [chanRun, hs]
      rw [hred]
      exact hm

/-- The run invariant of one channel, from an arbitrary start state: the
commands sent plus those still pending form (in order) a sublist of the
enqueued commands - equality when no failure flushed the queue - the worker
is in flight exactly when dispatches exceed completes by one, and every
completed wait consumed a distinct readiness-event set. -/
theorem chanRun_invariant (evs : List ChanEvent) (st st' : DispatchState)
    (h : chanRun st evs = some st') :
    List.Sublist (st'.sent ++ st'.queue) ((st.sent ++ st.queue) ++ enqueuedOf evs) ∧
    (ChanEvent.flush ∉ evs →
      st'.sent ++ st'.queue = (st.sent ++ st.queue) ++ enqueuedOf evs) ∧
    countDispatch evs + st.waiting.toNat = countComplete evs + st'.waiting.toNat ∧
    countComplete evs + st'.eventSet.toNat ≤ countReady evs + st.eventSet.toNat := by
  induction evs generalizing st with
  | nil =>
    simp only [chanRun, Option.some.injEq] at h
    subst h
    simp [enqueuedOf, countDispatch, countComplete, countReady]
  | cons e es ih =>
    cases e with
    | enqueue c =>
      have h' : chanRun { st with queue := st.queue ++ [c] } es = some st' := h
      obtain ⟨hsub, heq, hcnt, hev⟩ := ih _ h'
      have elist : (st.sent ++ st.queue) ++ enqueuedOf (ChanEvent.enqueue c :: es)
          = (st.sent ++ (st.queue ++ [c])) ++ enqueuedOf es := by
        simp [enqueuedOf]
      refine ⟨?_, ?_, ?_, ?_⟩
      · rw [elist]; exact hsub
      · intro hnf
        rw [elist]
        exact heq fun hm => hnf (List.mem_cons_of_mem _ hm)
      · simpa [countDispatch, countComplete] using hcnt
      · simpa [countComplete, countReady] using hev
    | dispatch =>
      cases hw : st.waiting with
      | true => simp [chanRun, chanStep, hw] at h
      | false =>
        cases hq : st.queue with
        | nil => simp [chanRun, chanStep, hw, hq] at h
        | cons c rest =>
          have h' : chanRun ⟨rest, st.sent ++ [c], true, false⟩ es = some st' := by
            simpa [chanRun, chanStep, hw, hq] using h
          obtain ⟨hsub, heq, hcnt, hev⟩ := ih _ h'
          refine ⟨?_, ?_, ?_, ?_⟩
          · simpa [enqueuedOf] using hsub
          · intro hnf
            simpa [enqueuedOf] using heq fun hm => hnf (List.mem_cons_of_mem _ hm)
          · simp only [countDispatch, countComplete] at hcnt ⊢
            simp only [hw, Bool.toNat_false, Bool.toNat_true] at hcnt ⊢
            omega
          · simp only [countComplete, countReady] at hev ⊢
            simp only [Bool.toNat_false] at hev
            omega
    | readySet =>
      have h' : chanRun { st with eventSet := true } es = some st' := h
      obtain ⟨hsub, heq, hcnt, hev⟩ := ih _ h'
      refine ⟨hsub, fun hnf => heq fun hm => hnf (List.mem_cons_of_mem _ hm), ?_, ?_⟩
      · simpa [countDispatch, countComplete] using hcnt
      · simp only [countComplete, countReady] at hev ⊢
        simp only [Bool.toNat_true] at hev
        cases he : st.eventSet <;> simp [he] <;> omega
    | complete =>
      cases hb : st.waiting && st.eventSet with
      | false => simp [chanRun, chanStep, hb] at h
      | true =>
        obtain ⟨hwt, hes⟩ := Bool.and_eq_true_iff.mp hb
        have h' : chanRun { st with waiting := false, eventSet := false } es = some st' := by
          simpa [chanRun, chanStep, hb] using h
        obtain ⟨hsub, heq, hcnt, hev⟩ := ih _ h'
        refine ⟨hsub, fun hnf => heq fun hm => hnf (List.mem_cons_of_mem _ hm), ?_, ?_⟩
        · simp only [countDispatch, countComplete] at hcnt ⊢
          simp only [hwt, Bool.toNat_false, Bool.toNat_true] at hcnt ⊢
          omega
        · simp only [countComplete, countReady] at hev ⊢
          simp only [hes, Bool.toNat_false, Bool.toNat_true] at hev ⊢
          omega
    | flush =>
      have h' : chanRun { st with queue := [] } es = some st' := h
      obtain ⟨hsub, heq, hcnt, hev⟩ := ih _ h'
      refine ⟨?_, ?_, ?_, ?_⟩
      · have step1 : List.Sublist (st.sent ++ enqueuedOf es)
            ((st.sent ++ st.queue) ++ enqueuedOf es) := by
          rw [List.append_assoc]
          exact (List.sublist_append_right st.queue (enqueuedOf es)).append_left st.sent
        have hsub' : List.Sublist (st'.sent ++ st'.queue) (st.sent ++ enqueuedOf es) := by
          simpa using hsub
        have elist : (st.sent ++ st.queue) ++ enqueuedOf (ChanEvent.flush :: es)
            = (st.sent ++ st.queue) ++ enqueuedOf es := by
          simp [enqueuedOf]
        rw [elist]
        exact hsub'.trans step1
      · intro hnf
        exact absurd (List.mem_cons_self _ _) hnf
      · simpa [countDispatch, countComplete] using hcnt
      · simpa [countComplete, countReady] using hev

/-- C1: on one channel, non-immediate commands are dispatched in exactly the
order they were enqueued (FIFO, no reordering or priority): any reachable
state has sent-then-pending equal to the enqueue sequence (a sublist of it if
failures flushed pending commands), and over every prefix of the trace the
number of dispatches never exceeds the number of resolved readiness waits by
more than one, and never exceeds the number of readiness-event sets by more
than one - at most one command is in flight at any time, and a later command
is never sent before the previous command's readiness event resolved. -/
theorem fifo_dispatch_one_in_flight (evs : List ChanEvent) (st' : DispatchState)
    (h : chanRun initChan evs = some st') :
    (ChanEvent.flush ∉ evs → st'.sent ++ st'.queue = enqueuedOf evs) ∧
    List.Sublist st'.sent (enqueuedOf evs) ∧
    (∀ p q, evs = p ++ q →
      countComplete p ≤ countDispatch p ∧
      countDispatch p ≤ countComplete p + 1 ∧
      countDispatch p ≤ countReady p + 1) := by
  obtain ⟨hsub, heq, _, _⟩ := chanRun_invariant evs initChan st' h
  refine ⟨?_, ?_, ?_⟩
  · intro hnf
    simpa [initChan] using heq hnf
  · exact (List.sublist_append_left st'.sent st'.queue).trans (by simpa [initChan] using hsub)
  · intro p q hpq
    subst hpq
    obtain ⟨m, hp, _⟩ := chanRun_split p q initChan st' h
    obtain ⟨_, _, hcnt, hev⟩ := chanRun_invariant p initChan m hp
    simp only [initChan] at hcnt hev
    cases hw : m.waiting <;> cases he : m.eventSet <;>
      simp [hw, he] at hcnt hev <;> omega

/-- Witness for C1: a concrete two-command trace. -/
theorem fifo_dispatch_one_in_flight_witness :
    chanRun initChan sampleTrace = some sampleEnd ∧
    sampleEnd.sent ++ sampleEnd.queue = enqueuedOf sampleTrace ∧
    List.Sublist sampleEnd.sent (enqueuedOf sampleTrace) ∧
    countDispatch sampleTrace ≤ countReady sampleTrace + 1 := by
  have h := fifo_dispatch_one_in_flight sampleTrace sampleEnd rfl
  exact ⟨rfl, h.1 (by decide), h.2.1, (h.2.2 sampleTrace [] (by simp)).2.2⟩

end Exsi

namespace ExsiGui

/-- The first solved index after a run of unsolved slices. -/
theorem firstSome_replicate_none {α : Type} (a : Nat) (v : α) (l : List (Option α)) :
    firstSome (List.replicate a (none : Option α) ++ some v :: l) = some a := by
  induction a with
  | zero => simp [firstSome]
  | succ n ih => simp [List.replicate_succ, firstSome, ih]

/-- A run of `none`s contributes nothing to the solved count. -/
theorem countP_isSome_replicate_none {α : Type} (n : Nat) :
    (List.replicate n (none : Option α)).countP (·.isSome) = 0 := by
  induction n with
  | zero => rfl
  | succ k ih => simp [List.replicate_succ, List.countP_cons, ih]

/-- Every entry of `vs.map some` is solved. -/
theorem countP_isSome_map_some {α : Type} (vs : List α) :
    (vs.map some).countP (·.isSome) = vs.length := by
  induction vs with
  | nil => rfl
  | cons v t ih => simp [List.countP_cons, ih]

/-- Prepending an unsolved slice shifts all solved indices by one. -/
theorem someIndices_none_cons {α : Type} (l : List (Option α)) :
    someIndices ((none : Option α) :: l) = (someIndices l).map (· + 1) := rfl

/-- Prepending a run of unsolved slices shifts all solved indices. -/
theorem someIndices_replicate_none {α : Type} (n : Nat) (l : List (Option α)) :
    someIndices (List.replicate n (none : Option α) ++ l)
      = (someIndices l).map (· + n) := by
  induction n with
  | zero => simp
  | succ k ih =>
    rw [List.replicate_succ, List.cons_append, someIndices_none_cons, ih, List.map_map]
    simp only [Function.comp_def]
    have : (fun x => x + k + 1) = fun x => x + (k + 1) := funext fun x => by omega
    rw [this]

/-- A trailing run of unsolved slices has no solved indices. -/
theorem someIndices_replicate_none_nil {α : Type} (c : Nat) :
    someIndices (List.replicate c (none : Option α)) = [] := by
  induction c with
  | zero => rfl
  | succ k ih => simp [List.replicate_succ, someIndices_none_cons, ih]

/-- The solved indices of a contiguous solved block followed by unsolved
slices are `0, 1, …`. -/
theorem someIndices_map_some {α : Type} (vs : List α) (l : List (Option α))
    (hl : someIndices l = []) :
    someIndices (vs.map some ++ l) = List.range vs.length := by
  induction vs with
  | nil => simpa using hl
  | cons v t ih =>
    rw [List.map_cons, List.cons_append]
    simp only [someIndices, Option.isSome_some, if_pos]
    rw [ih]
    simp [List.length_cons, List.range_succ_eq_map, Nat.succ_eq_add_one]

/-- Dropping the first element and the last element of a shifted range. -/
theorem range_map_drop_dropLast (a m : Nat) :
    (((List.range m).map (· + a)).drop 1).dropLast
      = (List.range (m - 2)).map (· + (a + 1)) := by
  cases m with
  | zero => simp
  | succ k =>
    rw [List.range_succ_eq_map, List.map_cons, List.drop_one, List.tail_cons, List.map_map]
    cases k with
    | zero => simp
    | succ j =>
      rw [List.range_succ, List.map_append, List.map_singleton, List.dropLast_concat]
      have : ((· + a) ∘ Nat.succ) = fun x => x + (a + 1) := funext fun x => by
        simp [Function.comp_def]; omega
      have hj : j + 1 + 1 - 2 = j := by omega
      rw [this, hj]

/-- C8 (amended): provided the slices with a solved CurrentVector form one
contiguous index range, the all-slice sweep visits exactly those slices minus
the first and the last of the range, performing one 2-scan verification per
visited slice (`countScansCompleted(2)` once per index of the visited range);
concretely the visited range is `[first+1, first+count-2]` of length
`count - 2`.  (For a non-contiguous solved set the code's first-index-plus-
count arithmetic visits a different set - see the counterexample.) -/
theorem all_slice_sweep_contiguous {α : Type} (a c : Nat) (vs : List α)
    (h : 1 ≤ vs.length) :
    doAllShimmedScansPlan
        (List.replicate a (none : Option α) ++ vs.map some ++ List.replicate c none)
      = some (solvedIndicesMinusEnds
          (List.replicate a (none : Option α) ++ vs.map some ++ List.replicate c none)) ∧
    doAllShimmedScansPlan
        (List.replicate a (none : Option α) ++ vs.map some ++ List.replicate c none)
      = some ((List.range (vs.length - 2)).map (· + (a + 1))) ∧
    (solvedIndicesMinusEnds
        (List.replicate a (none : Option α) ++ vs.map some ++ List.replicate c none)).length
      = vs.length - 2 := by
  obtain ⟨v, t, rfl⟩ : ∃ v t, vs = v :: t := by
    cases vs with
    | nil => simp at h
    | cons v t => exact ⟨v, t, rfl⟩
  have hfirst : firstSome
      (List.replicate a (none : Option α) ++ (v :: t).map some ++ List.replicate c none)
      = some a := by
    rw [List.map_cons, List.append_assoc, List.cons_append]
    exact firstSome_replicate_none a v (t.map some ++ List.replicate c none)
  have hcount : List.countP (fun o : Option α => o.isSome)
      (List.replicate a (none : Option α) ++ (v :: t).map some ++ List.replicate c none)
      = (v :: t).length := by
    rw [List.countP_append, List.countP_append, countP_isSome_replicate_none,
      countP_isSome_map_some, countP_isSome_replicate_none]
    omega
  have hplan : doAllShimmedScansPlan
      (List.replicate a (none : Option α) ++ (v :: t).map some ++ List.replicate c none)
      = some ((List.range ((v :: t).length - 2)).map (· + (a + 1))) := by
    rw [doAllShimmedScansPlan, hfirst]
    simp only [hcount, pyRangeList]
    have htn : (((v :: t).length : Int) - 2).toNat = (v :: t).length - 2 := by omega
    rw [htn]
    have : (fun i => a + 1 + i) = fun i => i + (a + 1) := funext fun i => by omega
    rw [this]
  have hspec : solvedIndicesMinusEnds
      (List.replicate a (none : Option α) ++ (v :: t).map some ++ List.replicate c none)
      = (List.range ((v :: t).length - 2)).map (· + (a + 1)) := by
    rw [solvedIndicesMinusEnds, List.append_assoc, someIndices_replicate_none,
      someIndices_map_some _ _ (someIndices_replicate_none_nil c)]
    exact range_map_drop_dropLast a (v :: t).length
  refine ⟨?_, hplan, ?_⟩
  · rw [hplan, hspec]
  · rw [hspec, List.length_map, List.length_range]

/-- C8 counterexample: with solved vectors at slices 0, 2 and 3 (slice 1
unsolved - the solver may fail on any slice), the sweep's first-index-plus-
count arithmetic visits slice 1, which has no solved vector, instead of
slice 2, the solved set minus its first and last element.  The claim as
stated (visit exactly the solved slices minus the first and last such slice)
is therefore false. -/
theorem all_slice_sweep_noncontiguous_counterexample :
    doAllShimmedScansPlan ([some 0, none, some 0, some 0] : List (Option Nat))
      = some [1] ∧
    solvedIndicesMinusEnds ([some 0, none, some 0, some 0] : List (Option Nat)) = [2] ∧
    doAllShimmedScansPlan ([some 0, none, some 0, some 0] : List (Option Nat))
      ≠ some (solvedIndicesMinusEnds ([some 0, none, some 0, some 0] : List (Option Nat))) ∧
    ([some 0, none, some 0, some 0] : List (Option Nat))[1]? = some none := by
  refine ⟨rfl, rfl, ?_, rfl⟩
  decide

/-- Witness for C8 at the spec's concrete instance: 50 contiguous solved
slices at indices 5..54 give 48 verification runs, on slices 6..53. -/
theorem all_slice_sweep_contiguous_witness :
    1 ≤ (List.replicate 50 (0 : Nat)).length ∧
    doAllShimmedScansPlan (List.replicate 5 (none : Option Nat)
        ++ (List.replicate 50 (0 : Nat)).map some ++ List.replicate 0 none)
      = some ((List.range 48).map (· + 6)) ∧
    (solvedIndicesMinusEnds (List.replicate 5 (none : Option Nat)
        ++ (List.replicate 50 (0 : Nat)).map some ++ List.replicate 0 none)).length
      = 48 := by
  have h := all_slice_sweep_contiguous 5 0 (List.replicate 50 (0 : Nat)) (by decide)
  refine ⟨by decide, ?_, by simpa using h.2.2⟩
  have h2 := h.2.1
  simpa using h2

end ExsiGui
